import Mathlib

/-!
Verification of `deployd`'s `Collection` resource
(`src/lib/resources/collection.js`) against its natural-language
specification.

The development shallowly embeds the JavaScript source:

* `JsVal` is a model of the JavaScript values handled by the collection
  (JSON-shaped data plus `undefined` and `Date`); objects are association
  lists with JavaScript assignment/lookup/delete semantics.
* `Collection.validate` and `Collection.sanitize` embed the schema engine
  (source lines 50-106).
* `Collection.execListener` embeds the hook-execution engine (source lines
  195-247), with owner-authored hook scripts modelled by the small command
  language `HookCmd` covering exactly the capability set the hook context
  exposes (`error`, `cancel`, `hide`, `protect`) plus an early `return`
  guard, which is the shape the specification's examples use.
* `Collection.save` and `Collection.remove` embed the CRUD orchestration
  (source lines 258-324); the externally observable store traffic is
  recorded as a list of `Event`s.
-/

set_option linter.unusedVariables false

/-- A model of the JavaScript values the collection handles: JSON data,
`undefined`, and `Date` instances (dates are opaque here, carried as a
timestamp).  `vNaN` is the IEEE NaN produced by a failed `parseInt`;
other numbers are modelled as integers, which covers every number the
embedded code itself creates. -/
inductive JsVal where
  | vStr (s : String)
  | vNum (n : Int)
  | vNaN
  | vBool (b : Bool)
  | vNull
  | vUndefined
  | vDate (ms : Int)
  | vObj (fields : List (String × JsVal))
  | vArr (elems : List JsVal)

/-- A JavaScript object: an association list of fields in insertion order. -/
abbrev JsObj := List (String × JsVal)

/-- JavaScript `typeof`. -/
def typeofJs : JsVal → String
  | .vStr _ => "string"
  | .vNum _ => "number"
  | .vNaN => "number"
  | .vBool _ => "boolean"
  | .vNull => "object"
  | .vUndefined => "undefined"
  | .vDate _ => "object"
  | .vObj _ => "object"
  | .vArr _ => "object"

/-- JavaScript truthiness. -/
def jsTruthy : JsVal → Bool
  | .vStr s => !s.isEmpty
  | .vNum n => n != 0
  | .vNaN => false
  | .vBool b => b
  | .vNull => false
  | .vUndefined => false
  | .vDate _ => true
  | .vObj _ => true
  | .vArr _ => true

/-- First value stored under key `k`, if any (JavaScript objects have
unique keys, so this is the object's value at `k`). -/
def objLookup (o : JsObj) (k : String) : Option JsVal :=
  (o.find? (fun p => p.1 = k)).map (fun p => p.2)

/-- JavaScript property read `o[k]`: `undefined` when the key is absent. -/
def objGet (o : JsObj) (k : String) : JsVal :=
  (objLookup o k).getD .vUndefined

/-- JavaScript property write `o[k] = v`: overwrite in place when the key
exists, append otherwise. -/
def objSet (o : JsObj) (k : String) (v : JsVal) : JsObj :=
  if o.any (fun p => p.1 = k) then
    o.map (fun p => if p.1 = k then (k, v) else p)
  else
    o ++ [(k, v)]

/-- JavaScript `delete o[k]`. -/
def objDelete (o : JsObj) (k : String) : JsObj :=
  o.filter (fun p => p.1 ≠ k)

/-- Property read on an arbitrary value; non-objects yield `undefined`
(the embedded code only reads named properties off objects or off falsy
values it has already guarded). -/
def jsGetProp (v : JsVal) (k : String) : JsVal :=
  match v with
  | .vObj o => objGet o k
  | _ => .vUndefined

/-- Property write on an arbitrary value; on primitives sloppy-mode
JavaScript silently does nothing. -/
def jsSetProp (v : JsVal) (k : String) (x : JsVal) : JsVal :=
  match v with
  | .vObj o => .vObj (objSet o k x)
  | other => other

/-- `delete v[k]` on an arbitrary value; on primitives sloppy-mode
JavaScript silently does nothing. -/
def jsDelProp (v : JsVal) (k : String) : JsVal :=
  match v with
  | .vObj o => .vObj (objDelete o k)
  | other => other

/-- The string content of a value; the embedded code only applies this
where the value is already known to be a string. -/
def strOfJs : JsVal → String
  | .vStr s => s
  | _ => ""

/-- Hexadecimal digit value, used by `parseIntJs`. -/
def hexDigitVal (c : Char) : Option Nat :=
  if '0' ≤ c ∧ c ≤ '9' then some (c.toNat - '0'.toNat)
  else if 'a' ≤ c ∧ c ≤ 'f' then some (c.toNat - 'a'.toNat + 10)
  else if 'A' ≤ c ∧ c ≤ 'F' then some (c.toNat - 'A'.toNat + 10)
  else none

/-- Decimal digit value, used by `parseIntJs`. -/
def decDigitVal (c : Char) : Option Nat :=
  if '0' ≤ c ∧ c ≤ '9' then some (c.toNat - '0'.toNat) else none

/-- JavaScript whitespace accepted by `parseInt` (the ASCII portion). -/
def isJsWs (c : Char) : Bool :=
  c = ' ' ∨ c = '\t' ∨ c = '\n' ∨ c = '\r' ∨ c = '\x0b' ∨ c = '\x0c'

/-- JavaScript `parseInt(s)` with the radix argument omitted: skip
leading whitespace, read an optional sign, honour a `0x`/`0X` prefix as
hexadecimal, then take the longest digit prefix; `NaN` when there is no
digit. -/
def parseIntJs (s : String) : JsVal :=
  let cs := s.data.dropWhile isJsWs
  let signed : Int × List Char :=
    match cs with
    | '-' :: r => (-1, r)
    | '+' :: r => (1, r)
    | _ => (1, cs)
  let based : Nat × List Char :=
    match signed.2 with
    | '0' :: 'x' :: r => (16, r)
    | '0' :: 'X' :: r => (16, r)
    | _ => (10, signed.2)
  let digit : Char → Option Nat :=
    if based.1 = 16 then hexDigitVal else decDigitVal
  let ds := based.2.takeWhile (fun c => (digit c).isSome)
  if ds.isEmpty then .vNaN
  else .vNum (signed.1 * Int.ofNat
    (ds.foldl (fun a c => a * based.1 + ((digit c).getD 0)) 0))

/-- A declared schema property: `{type: ..., required: ...}`.  `type` is
`none` when the configuration omits it. -/
structure PropDef where
  type : Option String
  required : Bool := false
deriving DecidableEq

/-- The six declared types the spec's `PropertySchema` admits. -/
def declaredTypes : List String :=
  ["string", "number", "boolean", "date", "object", "array"]

/-- A property whose declared type (when present) is one the spec's
`PropertySchema` admits. -/
def PropDef.schemaTyped (p : PropDef) : Bool :=
  match p.type with
  | none => true
  | some t => declaredTypes.contains t

/-- A `Collection`'s `properties` setting: field name to property
definition, in declaration order (JavaScript object keys are unique). -/
abbrev Schema := List (String × PropDef)

/-- Modelled from the spec: the external `validation` module's
`exists` check — a value is supplied unless it is `undefined` or
`null` (the module itself is an npm dependency, not part of this
repository's source). -/
def vExists (v : JsVal) : Bool :=
  match v with
  | .vUndefined => false
  | .vNull => false
  | _ => true

/-- Modelled from the spec: the external `validation` module's `isType`
predicate, following the spec's fixed type-checking table —
string/number/boolean by `typeof`, `date` by `Date` instance, `object`
by `typeof`, `array` by `Array.isArray`. -/
def isType (v : JsVal) (t : String) : Bool :=
  if t = "string" then typeofJs v = "string"
  else if t = "number" then typeofJs v = "number"
  else if t = "boolean" then typeofJs v = "boolean"
  else if t = "date" then (match v with | .vDate _ => true | _ => false)
  else if t = "object" then typeofJs v = "object"
  else if t = "array" then (match v with | .vArr _ => true | _ => false)
  else false

namespace Collection

/-- `prop.type || 'string'` from `Collection.prototype.validate`: a
missing (or empty-string, hence falsy) declared type defaults to
`'string'`. -/
def typeOrString (t : Option String) : String :=
  match t with
  | some s => if s.isEmpty then "string" else s
  | none => "string"

/-- One key's contribution to the `errors` object of
`Collection.prototype.validate` (source lines 57-69): a supplied value
of the wrong type yields `'must be a <type>'`, a missing value yields
`'is required'` when the property is required. -/
def validateValue (prop : PropDef) (val : JsVal) : Option JsVal :=
  let type := typeOrString prop.type
  if vExists val then
    if !(isType val type) then some (.vStr ("must be a " ++ type)) else none
  else if prop.required then some (.vStr "is required")
  else none

/-- `Collection.prototype.validate` (source lines 50-72): fold the
declared properties, accumulating field errors; return the `errors`
object when non-empty, `undefined` (here `none`) otherwise. -/
def validate (props : Schema) (body : JsObj) : Option JsObj :=
  let errors := props.foldl (fun errors kp =>
    match validateValue kp.2 (objGet body kp.1) with
    | some e => objSet errors kp.1 e
    | none => errors) []
  if errors.length = 0 then none else some errors

/-- One key's contribution to the output of
`Collection.prototype.sanitize` (source lines 89-103): copy the value
when `typeof` matches the declared type exactly; as the single coercion,
`parseInt` a string when the declared type is `number`; drop the value
otherwise.  (`expected == actual` compares the possibly-`undefined`
declared type against the `typeof` string, so a missing declared type
never matches.) -/
def sanitizeValue (prop : PropDef) (val : JsVal) : Option JsVal :=
  let expected := prop.type
  let actual := typeofJs val
  if expected = some actual then some val
  else if expected = some "number" ∧ actual = "string" then
    some (parseIntJs (strOfJs val))
  else none

/-- `Collection.prototype.sanitize` (source lines 84-106): fold the
declared properties over an initially empty object, copying or coercing
each declared field from the body.  Fields absent from the schema are
never visited, hence dropped. -/
def sanitize (props : Schema) (body : JsObj) : JsObj :=
  props.foldl (fun sanitized kp =>
    match sanitizeValue kp.2 (objGet body kp.1) with
    | some v => objSet sanitized kp.1 v
    | none => sanitized) []

end Collection

/-- One step of an owner-authored hook script, covering exactly the
capability set `Collection.prototype.execListener` exposes to the
script's context (source lines 199-226): `error(key, val)`,
`cancel(msg, status)`, `hide(property)`, `protect(property)`, plus
`retIfNot f`, which models the guard `if (!this.f) return;` the spec's
examples rely on to act on a single record. -/
inductive HookCmd where
  | error (key : String) (val : Option String)
  | cancel (msg : String) (status : Option Int)
  | hide (field : String)
  | protect (field : String)
  | retIfNot (field : String)

/-- The privileged capabilities: the calls the spec says are neutralized
for a root session (`cancel`, `hide`, `protect`). -/
def HookCmd.isPriv : HookCmd → Bool
  | .cancel _ _ => true
  | .hide _ => true
  | .protect _ => true
  | _ => false

/-- The capabilities that stay root-exempt even inside the `Get`
wrapper, where `hide` is rebound without a root check. -/
def HookCmd.isCancelOrProtect : HookCmd → Bool
  | .cancel _ _ => true
  | .protect _ => true
  | _ => false

/-- A failure thrown while hook logic runs and caught by `asyncEval`:
either the `Error` thrown by `cancel` for a non-root session (carrying
its message and status), or any other runtime fault. -/
inductive HookErr where
  | cancelled (msg : String) (status : Option Int)
  | fault

/-- What `execListener` hands to its callback `fn(err, errors || item)`:
a thrown failure, the accumulated `errors` object when any `error` call
happened (an object is always truthy), or the item itself — a single
record/value for the non-`Get` path, the (possibly holed) result array
for the `Get` path, a hole (`none`) marking a slot removed by an array
`delete`. -/
inductive HookRes where
  | failed (e : HookErr)
  | okErrors (errs : JsObj)
  | okItem (v : JsVal)
  | okList (items : List (Option JsVal))

/-- `errors[key] = val || true` from the `error` capability: a falsy
message (absent or empty) stores the generic marker `true`. -/
def errVal (v : Option String) : JsVal :=
  match v with
  | some s => if s.isEmpty then .vBool true else .vStr s
  | none => .vBool true

namespace Collection

/-- Run a hook script on the non-`Get` path of `execListener` (source
lines 195-226, 244-246): the context's `error` accumulates into the
shared `errors` object; `cancel` throws for a non-root session;
`hide`/`protect` both `delete data[property]` for a non-root session,
where `data` aliases the item (a `delete` on `null`/`undefined` is a
thrown `TypeError`); `retIfNot` returns early when the guard field is
falsy. -/
def runCmds (root : Bool) :
    List HookCmd → Option JsObj → JsVal → Except HookErr (Option JsObj × JsVal)
  | [], errors, data => .ok (errors, data)
  | c :: rest, errors, data =>
    match c with
    | .error k v =>
        runCmds root rest (some (objSet (errors.getD []) k (errVal v))) data
    | .cancel m s =>
        if root then runCmds root rest errors data
        else .error (.cancelled m s)
    | .hide f =>
        if root then runCmds root rest errors data
        else
          match data with
          | .vObj o => runCmds root rest errors (.vObj (objDelete o f))
          | .vNull => .error .fault
          | .vUndefined => .error .fault
          | other => runCmds root rest errors other
    | .protect f =>
        if root then runCmds root rest errors data
        else
          match data with
          | .vObj o => runCmds root rest errors (.vObj (objDelete o f))
          | .vNull => .error .fault
          | .vUndefined => .error .fault
          | other => runCmds root rest errors other
    | .retIfNot f =>
        if jsTruthy (jsGetProp data f) then runCmds root rest errors data
        else .ok (errors, data)

/-- A canonical array index: `delete arr[f]` removes an element only
when `f` is the decimal representation of an index. -/
def canonIndex (f : String) : Option Nat :=
  match f.toNat? with
  | some n => if toString n = f then some n else none
  | none => none

/-- Run the hook script against one record of the `Get` result list.
The wrapper `execListener` builds for `Get` (source lines 229-242)
rebinds `hide` to a local `function hide(property) { delete
item[property]; }` over the current record — with no root check — while
`error`, `cancel` and `protect` still come from the shared context;
`protect` therefore runs `delete data[property]` against the whole
result array (`data`), which only removes an element when the property
is a canonical index.  The array is carried as the already-visited
prefix `done`, a flag `holed` for the current slot, and the unvisited
suffix `todo`; the current record object itself (`item`) stays live even
if its slot is deleted. -/
def runGetCmds (root : Bool) :
    List HookCmd → JsVal → Bool → List (Option JsVal) → List (Option JsVal) →
    Option JsObj →
    Except HookErr (JsVal × Bool × List (Option JsVal) × List (Option JsVal) × Option JsObj)
  | [], item, holed, done, todo, errors => .ok (item, holed, done, todo, errors)
  | c :: rest, item, holed, done, todo, errors =>
    match c with
    | .error k v =>
        runGetCmds root rest item holed done todo
          (some (objSet (errors.getD []) k (errVal v)))
    | .cancel m s =>
        if root then runGetCmds root rest item holed done todo errors
        else .error (.cancelled m s)
    | .hide f =>
        match item with
        | .vObj o => runGetCmds root rest (.vObj (objDelete o f)) holed done todo errors
        | .vNull => .error .fault
        | .vUndefined => .error .fault
        | other => runGetCmds root rest other holed done todo errors
    | .protect f =>
        if root then runGetCmds root rest item holed done todo errors
        else
          match canonIndex f with
          | some i =>
            if h : i < done.length then
              runGetCmds root rest item holed (done.set i none) todo errors
            else if i = done.length then
              runGetCmds root rest item true done todo errors
            else if i - done.length - 1 < todo.length then
              runGetCmds root rest item holed done (todo.set (i - done.length - 1) none) errors
            else runGetCmds root rest item holed done todo errors
          | none => runGetCmds root rest item holed done todo errors
    | .retIfNot f =>
        if jsTruthy (jsGetProp item f) then runGetCmds root rest item holed done todo errors
        else .ok (item, holed, done, todo, errors)

/-- The `this.forEach(function (item) {...})` loop of the `Get` wrapper:
visit each slot in order (`forEach` skips holes), run the script against
the record there, and write the possibly-mutated record back unless its
own slot was deleted meanwhile.  `fuel` is the number of remaining
slots (`forEach` visits the indices `0 .. length-1`; `delete` never
changes the length), kept explicit so the recursion is structural. -/
def getLoop (root : Bool) (cmds : List HookCmd) :
    Nat → List (Option JsVal) → List (Option JsVal) → Option JsObj →
    Except HookErr (List (Option JsVal) × Option JsObj)
  | 0, done, todo, errors => .ok (done ++ todo, errors)
  | fuel + 1, done, todo, errors =>
    match todo with
    | [] => .ok (done, errors)
    | none :: todo => getLoop root cmds fuel (done ++ [none]) todo errors
    | some item :: todo =>
      match runGetCmds root cmds item false done todo errors with
      | .error e => .error e
      | .ok (item2, holed, done2, todo2, errors2) =>
          getLoop root cmds fuel
            (done2 ++ [if holed then none else some item2]) todo2 errors2

/-- The non-`Get` path of `execListener`: run the script once against
the item; the callback receives `(err, errors || item)`. -/
def execNonGet (root : Bool) (item : JsVal) (cmds : List HookCmd) : HookRes :=
  match runCmds root cmds none item with
  | .error e => .failed e
  | .ok (some errs, _) => .okErrors errs
  | .ok (none, data) => .okItem data

/-- The `Get` path of `execListener`: the wrapped script runs once per
record of the result array; a non-array item makes `this.forEach`
throw. -/
def execListenerGet (root : Bool) (item : JsVal) (cmds : List HookCmd) : HookRes :=
  match item with
  | .vArr elems =>
      match getLoop root cmds elems.length [] (elems.map some) none with
      | .error e => .failed e
      | .ok (_, some errs) => .okErrors errs
      | .ok (arr, none) => .okList arr
  | _ => .failed .fault

/-- `Collection.prototype.execListener` (source lines 195-247).  For the
`Get` event the configured script is wrapped to run once per record of
the result list; for every other event it runs once against the item. -/
def execListener (method : String) (root : Bool) (item : JsVal)
    (cmds : List HookCmd) : HookRes :=
  if method = "Get" then execListenerGet root item cmds
  else execNonGet root item cmds

end Collection

/-- An externally observable action of the orchestrator: a hook
execution or a call on the backing store. -/
inductive Event where
  | hookRun (name : String) (payload : JsVal)
  | storeFind (query : JsVal)
  | storeInsert (item : JsVal)
  | storeUpdate (query : JsVal) (item : JsVal)
  | storeRemove (query : JsVal)

/-- How `Collection.prototype.save` completes: an immediate precondition
error handed to the callback, or the callback delegated to the single
store call it issues. -/
inductive SaveOutcome where
  | precondFail (msg : String)
  | delegated

/-- How `Collection.prototype.remove` completes. -/
inductive RemoveOutcome where
  | precondFail (msg : String)
  | findFailed (e : String)
  | hookFailed (e : HookErr)
  | delegated

namespace Collection

/-- `Collection.prototype.save` (source lines 302-324).  `query` is
`none` when the call used the optional-argument form (`query` passed as
the callback); the body then defaults it with `query = query || {}`.
After the `!item` guard, a truthy `item._id` is moved onto the query and
deleted from the item, and the upsert line issues `update(query, item)`
when `query._id` is truthy, `insert(item)` otherwise.  These lines are
the whole function: it calls neither `validate`, `sanitize`, nor
`execListener`, and reads no session or listener settings. -/
def save (item : Option JsVal) (query : Option JsVal) : List Event × SaveOutcome :=
  let q0 := match query with
    | some q => q
    | none => JsVal.vUndefined
  let q1 := if jsTruthy q0 then q0 else .vObj []
  let it0 := match item with
    | some i => i
    | none => JsVal.vUndefined
  if !jsTruthy it0 then
    ([], .precondFail "You must include an object when saving or updating.")
  else
    let idv := jsGetProp it0 "_id"
    let moved :=
      if jsTruthy idv then (jsSetProp q1 "_id" idv, jsDelProp it0 "_id")
      else (q1, it0)
    if jsTruthy (jsGetProp moved.1 "_id") then
      ([.storeUpdate moved.1 moved.2], .delegated)
    else
      ([.storeInsert moved.2], .delegated)

/-- `Collection.prototype.remove` (source lines 278-290), run against a
store whose `find(query)` answers with `findErr` (`none` = success) and
a `Delete` hook configured as `cmds`.  Without a truthy `query._id` the
callback gets the precondition message and the store is never touched;
otherwise `find`, then the `Delete` listener with a `null` payload, then
`remove`, stopping at the first failure. -/
def remove (root : Bool) (query : Option JsVal) (cmds : List HookCmd)
    (findErr : Option String) : List Event × RemoveOutcome :=
  let q := match query with
    | some q => q
    | none => JsVal.vUndefined
  if !(jsTruthy q ∧ jsTruthy (jsGetProp q "_id")) then
    ([], .precondFail "You must include a query with an _id when deleting an object from a collection.")
  else
    match findErr with
    | some e => ([.storeFind q], .findFailed e)
    | none =>
      match execListener "Delete" root .vNull cmds with
      | .failed e => ([.storeFind q, .hookRun "Delete" .vNull], .hookFailed e)
      | _ => ([.storeFind q, .hookRun "Delete" .vNull, .storeRemove q], .delegated)

end Collection


/-! ## Association-list lemmas -/

theorem objLookup_cons (p : String × JsVal) (t : JsObj) (k : String) :
    objLookup (p :: t) k = if p.1 = k then some p.2 else objLookup t k := by
  by_cases h : p.1 = k <;> simp [objLookup, List.find?, h]

theorem objSet_cons (p : String × JsVal) (t : JsObj) (k : String) (v : JsVal) :
    objSet (p :: t) k v =
      if p.1 = k then (k, v) :: t.map (fun q => if q.1 = k then (k, v) else q)
      else p :: objSet t k v := by
  by_cases hp : p.1 = k
  · simp [objSet, List.any_cons, hp]
  · by_cases ht : t.any (fun q => q.1 = k) <;> simp [objSet, List.any_cons, hp, ht]

theorem objLookup_map_rewrite (t : JsObj) (k k2 : String) (v : JsVal) (h : k2 ≠ k) :
    objLookup (t.map (fun q => if q.1 = k then (k, v) else q)) k2 = objLookup t k2 := by
  induction t with
  | nil => rfl
  | cons q t ih =>
    by_cases hq : q.1 = k
    · rw [List.map_cons, hq]
      rw [objLookup_cons, objLookup_cons]
      simp only [hq]
      rw [if_neg (fun hc => h (hc.symm)), if_neg (fun hc : k = k2 => h (hc.symm))]
      exact ih
    · rw [List.map_cons, if_neg hq, objLookup_cons, objLookup_cons]
      by_cases hq2 : q.1 = k2
      · simp [hq2]
      · simp [hq2, ih]

theorem objLookup_objSet_self (o : JsObj) (k : String) (v : JsVal) :
    objLookup (objSet o k v) k = some v := by
  induction o with
  | nil => simp [objSet, objLookup]
  | cons p t ih =>
    rw [objSet_cons]
    by_cases hp : p.1 = k
    · rw [if_pos hp, objLookup_cons, if_pos rfl]
    · rw [if_neg hp, objLookup_cons, if_neg hp]
      exact ih

theorem objLookup_objSet_of_ne (o : JsObj) (k k2 : String) (v : JsVal) (h : k2 ≠ k) :
    objLookup (objSet o k v) k2 = objLookup o k2 := by
  induction o with
  | nil =>
    have hne : ¬(k = k2) := fun hc => h hc.symm
    simp [objSet, objLookup, List.find?, hne]
  | cons p t ih =>
    rw [objSet_cons]
    by_cases hp : p.1 = k
    · rw [if_pos hp, objLookup_cons]
      simp only []
      rw [if_neg (fun hc : k = k2 => h hc.symm), objLookup_map_rewrite _ _ _ _ h,
        objLookup_cons, if_neg (fun hc : p.1 = k2 => h (hc ▸ hp ▸ rfl))]
    · rw [if_neg hp, objLookup_cons, objLookup_cons]
      by_cases hp2 : p.1 = k2
      · simp [hp2]
      · simp [hp2, ih]

theorem objDelete_cons (p : String × JsVal) (t : JsObj) (k : String) :
    objDelete (p :: t) k = if p.1 = k then objDelete t k else p :: objDelete t k := by
  by_cases hp : p.1 = k <;> simp [objDelete, List.filter_cons, hp]

theorem objLookup_objDelete (o : JsObj) (f k : String) :
    objLookup (objDelete o f) k = if k = f then none else objLookup o k := by
  induction o with
  | nil => by_cases h : k = f <;> simp [objDelete, objLookup, h]
  | cons p t ih =>
    rw [objDelete_cons]
    by_cases hp : p.1 = f
    · rw [if_pos hp, ih]
      by_cases hk : k = f
      · simp [hk]
      · rw [if_neg hk, if_neg hk, objLookup_cons,
          if_neg (fun hc : p.1 = k => hk (hc ▸ hp ▸ rfl))]
    · rw [if_neg hp, objLookup_cons, objLookup_cons]
      by_cases hpk : p.1 = k
      · rw [if_pos hpk, if_pos hpk]
        rw [if_neg (fun hc : k = f => hp (hpk.symm ▸ hc))]
      · rw [if_neg hpk, if_neg hpk, ih]

theorem objSet_of_not_any (o : JsObj) (k : String) (v : JsVal)
    (h : o.any (fun p => p.1 = k) = false) :
    objSet o k v = o ++ [(k, v)] := by
  simp [objSet, h]

/-! ## Characterizing the schema-engine folds -/

theorem find?_key_of_mem_nodup {S : Schema} {k : String} {p : PropDef}
    (hmem : (k, p) ∈ S) (hnd : (S.map Prod.fst).Nodup) :
    S.find? (fun kp => kp.1 = k) = some (k, p) := by
  induction S with
  | nil => cases hmem
  | cons hd t ih =>
    rcases List.mem_cons.mp hmem with heq | hmemt
    · subst heq
      simp [List.find?]
    · have hk : k ∈ t.map Prod.fst := List.mem_map.mpr ⟨(k, p), hmemt, rfl⟩
      have hhd : hd.1 ∉ t.map Prod.fst := (List.nodup_cons.mp hnd).1
      have hne : ¬(hd.1 = k) := fun hc => hhd (hc ▸ hk)
      rw [List.find?_cons_of_neg _ (by simpa using hne)]
      exact ih hmemt (List.nodup_cons.mp hnd).2

theorem objLookup_foldl_objSet (g : String × PropDef → Option JsVal) (k : String) :
    ∀ (S : Schema) (acc : JsObj), (S.map Prod.fst).Nodup →
    objLookup (S.foldl (fun acc kp =>
        match g kp with
        | some v => objSet acc kp.1 v
        | none => acc) acc) k
      = (match S.find? (fun kp => kp.1 = k) with
        | some kp => (match g kp with
            | some v => some v
            | none => objLookup acc k)
        | none => objLookup acc k) := by
  intro S
  induction S with
  | nil => intro acc hnd; rfl
  | cons hd t ih =>
    intro acc hnd
    rw [List.foldl_cons]
    by_cases hk : hd.1 = k
    · have hnok : ∀ kp ∈ t, ¬((fun kp => (kp.1 = k : Bool)) kp = true) := by
        intro kp hkp
        have : kp.1 ∈ t.map Prod.fst := List.mem_map.mpr ⟨kp, hkp, rfl⟩
        have hhd : hd.1 ∉ t.map Prod.fst := (List.nodup_cons.mp hnd).1
        simp only [decide_eq_true_eq]
        exact fun hc => hhd (hk ▸ hc ▸ this)
      have hfind : t.find? (fun kp => kp.1 = k) = none :=
        List.find?_eq_none.mpr hnok
      rw [ih _ (List.nodup_cons.mp hnd).2, hfind,
        List.find?_cons_of_pos _ (by simpa using hk)]
      cases hg : g hd with
      | some v =>
        simp only [hg]
        rw [← hk]
        exact objLookup_objSet_self acc hd.1 v
      | none => simp [hg]
    · rw [ih _ (List.nodup_cons.mp hnd).2,
        List.find?_cons_of_neg _ (by simpa using hk)]
      have hacc : objLookup (match g hd with
          | some v => objSet acc hd.1 v
          | none => acc) k = objLookup acc k := by
        cases hg : g hd with
        | some v => exact objLookup_objSet_of_ne acc hd.1 k v (fun hc => hk hc.symm)
        | none => rfl
      cases hfind : t.find? (fun kp => kp.1 = k) with
      | some kp =>
        cases hg2 : g kp with
        | some v => simp [hg2]
        | none => simpa [hg2] using hacc
      | none => simpa using hacc

theorem foldl_objSet_eq_filterMap (g : String × PropDef → Option JsVal) :
    ∀ (S : Schema) (acc : JsObj), (S.map Prod.fst).Nodup →
    (∀ kp ∈ S, acc.any (fun p => p.1 = kp.1) = false) →
    S.foldl (fun acc kp =>
        match g kp with
        | some v => objSet acc kp.1 v
        | none => acc) acc
      = acc ++ S.filterMap (fun kp => (g kp).map (fun v => (kp.1, v))) := by
  intro S
  induction S with
  | nil => intro acc hnd hacc; simp
  | cons hd t ih =>
    intro acc hnd hacc
    rw [List.foldl_cons, List.filterMap_cons]
    cases hg : g hd with
    | some v =>
      have hset : objSet acc hd.1 v = acc ++ [(hd.1, v)] :=
        objSet_of_not_any acc hd.1 v (hacc hd (List.mem_cons_self hd t))
      have hacc2 : ∀ kp ∈ t, (acc ++ [(hd.1, v)]).any (fun p => p.1 = kp.1) = false := by
        intro kp hkp
        rw [List.any_append]
        have h1 : acc.any (fun p => p.1 = kp.1) = false :=
          hacc kp (List.mem_cons_of_mem hd hkp)
        have hhd : hd.1 ∉ t.map Prod.fst := (List.nodup_cons.mp hnd).1
        have h2 : ¬(hd.1 = kp.1) :=
          fun hc => hhd (hc ▸ List.mem_map.mpr ⟨kp, hkp, rfl⟩)
        simp [h1, h2]
      show List.foldl (fun acc kp =>
          match g kp with
          | some v => objSet acc kp.1 v
          | none => acc) (objSet acc hd.1 v) t
        = acc ++ ((hd.1, v) ::
            List.filterMap (fun kp => (g kp).map (fun v => (kp.1, v))) t)
      rw [hset, ih (acc ++ [(hd.1, v)]) (List.nodup_cons.mp hnd).2 hacc2,
        List.append_assoc]
      rfl
    | none =>
      show List.foldl (fun acc kp =>
          match g kp with
          | some v => objSet acc kp.1 v
          | none => acc) acc t
        = acc ++ List.filterMap (fun kp => (g kp).map (fun v => (kp.1, v))) t
      exact ih acc (List.nodup_cons.mp hnd).2
        (fun kp hkp => hacc kp (List.mem_cons_of_mem hd hkp))

theorem sanitize_objLookup (S : Schema) (R : JsObj) (k : String)
    (hnd : (S.map Prod.fst).Nodup) :
    objLookup (Collection.sanitize S R) k
      = (match S.find? (fun kp => kp.1 = k) with
        | some kp => Collection.sanitizeValue kp.2 (objGet R kp.1)
        | none => none) := by
  have h := objLookup_foldl_objSet
    (fun kp => Collection.sanitizeValue kp.2 (objGet R kp.1)) k S [] hnd
  rw [Collection.sanitize]
  rw [h]
  cases hf : S.find? (fun kp => kp.1 = k) with
  | some kp =>
    cases hsv : Collection.sanitizeValue kp.2 (objGet R kp.1) <;>
      simp [hsv, objLookup]
  | none => rfl

theorem sanitize_eq_filterMap (S : Schema) (R : JsObj)
    (hnd : (S.map Prod.fst).Nodup) :
    Collection.sanitize S R
      = S.filterMap (fun kp =>
          (Collection.sanitizeValue kp.2 (objGet R kp.1)).map (fun v => (kp.1, v))) :=
  foldl_objSet_eq_filterMap
    (fun kp => Collection.sanitizeValue kp.2 (objGet R kp.1)) S [] hnd (by simp)

theorem validate_some_objLookup (S : Schema) (R : JsObj) (k : String) (errs : JsObj)
    (hnd : (S.map Prod.fst).Nodup) (h : Collection.validate S R = some errs) :
    objLookup errs k
      = (match S.find? (fun kp => kp.1 = k) with
        | some kp => Collection.validateValue kp.2 (objGet R kp.1)
        | none => none) := by
  rw [Collection.validate] at h
  split at h
  · exact absurd h (by simp)
  · have herrs := Option.some.inj h
    subst herrs
    have h2 := objLookup_foldl_objSet
      (fun kp => Collection.validateValue kp.2 (objGet R kp.1)) k S [] hnd
    rw [h2]
    cases hf : S.find? (fun kp => kp.1 = k) with
    | some kp =>
      cases hvv : Collection.validateValue kp.2 (objGet R kp.1) <;>
        simp [hvv, objLookup]
    | none => rfl

theorem typeofJs_parseIntJs (s : String) : typeofJs (parseIntJs s) = "number" := by
  rw [parseIntJs, apply_ite typeofJs]
  simp [typeofJs]

theorem sanitizeValue_stable {p : PropDef} {w v : JsVal}
    (h : Collection.sanitizeValue p w = some v) :
    Collection.sanitizeValue p v = some v := by
  rw [Collection.sanitizeValue] at h
  split at h
  · rename_i hty
    have hv := Option.some.inj h
    subst hv
    rw [Collection.sanitizeValue, if_pos hty]
  · split at h
    · rename_i hnum
      have hv := Option.some.inj h
      subst hv
      rw [Collection.sanitizeValue,
        if_pos (by rw [typeofJs_parseIntJs]; exact hnum.1)]
    · cases h

theorem sanitizeValue_undefined_of_schemaTyped {p : PropDef}
    (hwf : p.schemaTyped = true) :
    Collection.sanitizeValue p JsVal.vUndefined = none := by
  rw [Collection.sanitizeValue]
  rw [if_neg, if_neg]
  · intro hc
    exact absurd hc.2 (by decide)
  · intro hc
    rw [PropDef.schemaTyped, hc] at hwf
    exact absurd hwf (by decide)

/-- C8: `sanitize(R, S)` contains no field absent from `S`; every field
declared in `S` and present in `R` whose run-time (`typeof`) type
exactly matches the declared type is copied unchanged; and a string
value for a field declared `number` is passed through `parseInt`. -/
theorem c8_sanitize_schema_projection (R : JsObj) (S : Schema)
    (hnd : (S.map Prod.fst).Nodup) :
    (∀ k, objLookup (Collection.sanitize S R) k ≠ none → ∃ p, (k, p) ∈ S)
  ∧ (∀ k p v, (k, p) ∈ S → objLookup R k = some v →
      p.type = some (typeofJs v) →
      objLookup (Collection.sanitize S R) k = some v)
  ∧ (∀ k p s, (k, p) ∈ S → p.type = some "number" →
      objLookup R k = some (.vStr s) →
      objLookup (Collection.sanitize S R) k = some (parseIntJs s)) := by
  refine ⟨?_, ?_, ?_⟩
  · intro k hk
    rw [sanitize_objLookup S R k hnd] at hk
    cases hf : S.find? (fun kp => kp.1 = k) with
    | some kp =>
      have hmem := List.mem_of_find?_eq_some hf
      have hpred := List.find?_some hf
      have hkey : kp.1 = k := by simpa using hpred
      exact ⟨kp.2, by rw [← hkey]; exact hmem⟩
    | none => rw [hf] at hk; exact absurd rfl hk
  · intro k p v hmem hlook hty
    rw [sanitize_objLookup S R k hnd, find?_key_of_mem_nodup hmem hnd]
    have hget : objGet R k = v := by rw [objGet, hlook]; rfl
    simp only [hget]
    rw [Collection.sanitizeValue, if_pos hty]
  · intro k p s hmem hty hlook
    rw [sanitize_objLookup S R k hnd, find?_key_of_mem_nodup hmem hnd]
    have hget : objGet R k = .vStr s := by rw [objGet, hlook]; rfl
    simp only [hget]
    rw [Collection.sanitizeValue]
    rw [if_neg (by rw [hty]; simp [typeofJs]), if_pos ⟨hty, rfl⟩]
    rfl

/-- C8 witness: on a two-field schema, a matching string is preserved
unchanged and a string for a `number` field is parseInt-coerced. -/
theorem c8_witness :
    ((([("title", PropDef.mk (some "string") false),
        ("n", PropDef.mk (some "number") false)] : Schema).map Prod.fst).Nodup)
  ∧ objLookup (Collection.sanitize
      [("title", PropDef.mk (some "string") false),
       ("n", PropDef.mk (some "number") false)]
      [("title", JsVal.vStr "x"), ("n", JsVal.vStr "5")]) "title"
      = some (JsVal.vStr "x")
  ∧ objLookup (Collection.sanitize
      [("title", PropDef.mk (some "string") false),
       ("n", PropDef.mk (some "number") false)]
      [("title", JsVal.vStr "x"), ("n", JsVal.vStr "5")]) "n"
      = some (JsVal.vNum 5) :=
  ⟨by decide,
   (c8_sanitize_schema_projection
      [("title", JsVal.vStr "x"), ("n", JsVal.vStr "5")]
      [("title", PropDef.mk (some "string") false),
       ("n", PropDef.mk (some "number") false)]
      (by decide)).2.1 "title" (PropDef.mk (some "string") false) (JsVal.vStr "x")
      (by decide) rfl rfl,
   (c8_sanitize_schema_projection
      [("title", JsVal.vStr "x"), ("n", JsVal.vStr "5")]
      [("title", PropDef.mk (some "string") false),
       ("n", PropDef.mk (some "number") false)]
      (by decide)).2.2 "n" (PropDef.mk (some "number") false) "5"
      (by decide) rfl rfl⟩

/-- C9: sanitize is idempotent — a second pass over an already-sanitized
record changes nothing, because a copied value still has the matching
`typeof` and a parseInt-coerced value has `typeof` `number`.  The schema
is a spec-conformant `PropertySchema`: unique keys and declared types
drawn from the spec's type table (or omitted). -/
theorem c9_sanitize_idempotent (R : JsObj) (S : Schema)
    (hnd : (S.map Prod.fst).Nodup)
    (hwf : ∀ kp ∈ S, kp.2.schemaTyped = true) :
    Collection.sanitize S (Collection.sanitize S R) = Collection.sanitize S R := by
  rw [sanitize_eq_filterMap S (Collection.sanitize S R) hnd]
  conv_rhs => rw [sanitize_eq_filterMap S R hnd]
  apply List.filterMap_congr
  intro kp hkp
  have hmem : (kp.1, kp.2) ∈ S := by simpa using hkp
  have hfind := find?_key_of_mem_nodup hmem hnd
  have hchar0 := sanitize_objLookup S R kp.1 hnd
  rw [hfind] at hchar0
  have hchar : objLookup (Collection.sanitize S R) kp.1
      = Collection.sanitizeValue kp.2 (objGet R kp.1) := hchar0
  cases hsv : Collection.sanitizeValue kp.2 (objGet R kp.1) with
  | some v =>
    have hget : objGet (Collection.sanitize S R) kp.1 = v := by
      rw [objGet, hchar, hsv]; rfl
    rw [hget, sanitizeValue_stable hsv]
  | none =>
    have hget : objGet (Collection.sanitize S R) kp.1 = .vUndefined := by
      rw [objGet, hchar, hsv]; rfl
    rw [hget, sanitizeValue_undefined_of_schemaTyped (hwf kp hkp)]

/-- C9 witness: idempotence at a concrete schema and record with a
string copy, a parseInt coercion, and a dropped undeclared field. -/
theorem c9_witness :
    Collection.sanitize
      [("title", PropDef.mk (some "string") false),
       ("n", PropDef.mk (some "number") false)]
      (Collection.sanitize
        [("title", PropDef.mk (some "string") false),
         ("n", PropDef.mk (some "number") false)]
        [("title", JsVal.vStr "t"), ("n", JsVal.vStr "7"), ("junk", JsVal.vBool true)])
    = Collection.sanitize
        [("title", PropDef.mk (some "string") false),
         ("n", PropDef.mk (some "number") false)]
        [("title", JsVal.vStr "t"), ("n", JsVal.vStr "7"), ("junk", JsVal.vBool true)] :=
  c9_sanitize_idempotent
    [("title", JsVal.vStr "t"), ("n", JsVal.vStr "7"), ("junk", JsVal.vBool true)]
    [("title", PropDef.mk (some "string") false),
     ("n", PropDef.mk (some "number") false)]
    (by decide) (by decide)

/-- C10: an untyped declared property defaults to `'string'` in
`validate` (a supplied value is checked against the string predicate),
while `sanitize` never copies it — `expected` is `undefined`, which
matches no `typeof` string — so even a string value passes validation
yet is dropped by sanitization. -/
theorem c10_untyped_property_disagreement (S : Schema) (R : JsObj)
    (k : String) (p : PropDef) (s : String)
    (hmem : (k, p) ∈ S) (hnd : (S.map Prod.fst).Nodup)
    (htype : p.type = none) (hval : objLookup R k = some (.vStr s)) :
    (∀ v, vExists v = true →
      Collection.validateValue p v
        = (if isType v "string" then none else some (.vStr "must be a string")))
  ∧ (∀ errs, Collection.validate S R = some errs → objLookup errs k = none)
  ∧ objLookup (Collection.sanitize S R) k = none := by
  refine ⟨?_, ?_, ?_⟩
  · intro v hv
    by_cases hit : isType v "string" = true <;>
      simp [Collection.validateValue, Collection.typeOrString, htype, hv, hit]
  · intro errs heq
    have h0 := validate_some_objLookup S R k errs hnd heq
    rw [find?_key_of_mem_nodup hmem hnd] at h0
    have h2 : objLookup errs k = Collection.validateValue p (objGet R k) := h0
    have hg : objGet R k = .vStr s := by rw [objGet, hval]; rfl
    rw [h2, hg]
    simp [Collection.validateValue, Collection.typeOrString, htype, vExists,
      isType, typeofJs]
  · have h0 := sanitize_objLookup S R k hnd
    rw [find?_key_of_mem_nodup hmem hnd] at h0
    have h3 : objLookup (Collection.sanitize S R) k
        = Collection.sanitizeValue p (objGet R k) := h0
    rw [h3]
    simp [Collection.sanitizeValue, htype]

/-- C10 witness: a string value on an untyped declared property is
dropped by sanitize while validate reports no error at all. -/
theorem c10_witness :
    objLookup (Collection.sanitize [("u", PropDef.mk none false)]
      [("u", JsVal.vStr "ok")]) "u" = none
  ∧ Collection.validate [("u", PropDef.mk none false)] [("u", JsVal.vStr "ok")] = none :=
  ⟨(c10_untyped_property_disagreement [("u", PropDef.mk none false)]
      [("u", JsVal.vStr "ok")] "u" (PropDef.mk none false) "ok"
      (by decide) (by decide) rfl rfl).2.2,
   rfl⟩

/-! ## Root sessions and the hook capabilities -/

theorem runCmds_root_filter :
    ∀ (cmds : List HookCmd) (errors : Option JsObj) (data : JsVal),
    Collection.runCmds true cmds errors data
      = Collection.runCmds true (cmds.filter (fun c => !c.isPriv)) errors data := by
  intro cmds
  induction cmds with
  | nil => intro errors data; rfl
  | cons c rest ih =>
    intro errors data
    cases c with
    | error k v =>
      simp [List.filter_cons, HookCmd.isPriv, Collection.runCmds]
      exact ih _ _
    | cancel m s =>
      simp [List.filter_cons, HookCmd.isPriv, Collection.runCmds]
      exact ih _ _
    | hide f =>
      simp [List.filter_cons, HookCmd.isPriv, Collection.runCmds]
      exact ih _ _
    | protect f =>
      simp [List.filter_cons, HookCmd.isPriv, Collection.runCmds]
      exact ih _ _
    | retIfNot f =>
      by_cases hj : jsTruthy (jsGetProp data f) = true <;>
        simp [List.filter_cons, HookCmd.isPriv, Collection.runCmds, hj, ih]

theorem runGetCmds_root_filter :
    ∀ (cmds : List HookCmd) (item : JsVal) (holed : Bool)
      (done todo : List (Option JsVal)) (errors : Option JsObj),
    Collection.runGetCmds true cmds item holed done todo errors
      = Collection.runGetCmds true (cmds.filter (fun c => !c.isCancelOrProtect))
          item holed done todo errors := by
  intro cmds
  induction cmds with
  | nil => intro item holed done todo errors; rfl
  | cons c rest ih =>
    intro item holed done todo errors
    cases c with
    | error k v =>
      simp [List.filter_cons, HookCmd.isCancelOrProtect, Collection.runGetCmds]
      exact ih _ _ _ _ _
    | cancel m s =>
      simp [List.filter_cons, HookCmd.isCancelOrProtect, Collection.runGetCmds]
      exact ih _ _ _ _ _
    | hide f =>
      cases item <;>
        simp [List.filter_cons, HookCmd.isCancelOrProtect, Collection.runGetCmds, ih]
    | protect f =>
      simp [List.filter_cons, HookCmd.isCancelOrProtect, Collection.runGetCmds]
      exact ih _ _ _ _ _
    | retIfNot f =>
      by_cases hj : jsTruthy (jsGetProp item f) = true <;>
        simp [List.filter_cons, HookCmd.isCancelOrProtect, Collection.runGetCmds, hj, ih]

theorem getLoop_congr (root : Bool) (cmds1 cmds2 : List HookCmd)
    (h : ∀ item holed done todo errors,
      Collection.runGetCmds root cmds1 item holed done todo errors
        = Collection.runGetCmds root cmds2 item holed done todo errors) :
    ∀ (fuel : Nat) (done todo : List (Option JsVal)) (errors : Option JsObj),
    Collection.getLoop root cmds1 fuel done todo errors
      = Collection.getLoop root cmds2 fuel done todo errors := by
  intro fuel
  induction fuel with
  | zero => intro done todo errors; rfl
  | succ n ih =>
    intro done todo errors
    cases todo with
    | nil => rfl
    | cons hd t =>
      cases hd with
      | none => simp only [Collection.getLoop]; exact ih _ _ _
      | some item =>
        simp only [Collection.getLoop]
        rw [← h item false done t errors]
        cases hr : Collection.runGetCmds root cmds1 item false done t errors with
        | error e => rfl
        | ok res =>
          obtain ⟨item2, holed, done2, todo2, errors2⟩ := res
          exact ih _ _ _

/-- C3 (amended): for a root session, `cancel`, `hide` and `protect`
have no observable effect on any non-`Get` hook invocation — running the
hook equals running it with those calls removed — and likewise `cancel`
and `protect` inside the per-record `Get` applications; but the `Get`
wrapper's rebound `hide` deletes the field from the current record with
no root check, so `hide` does alter root-session `Get` results. -/
theorem c3_root_capability_noop :
    (∀ (method : String) (item : JsVal) (cmds : List HookCmd), method ≠ "Get" →
      Collection.execListener method true item cmds
        = Collection.execListener method true item
            (cmds.filter (fun c => !c.isPriv)))
  ∧ (∀ (item : JsVal) (cmds : List HookCmd),
      Collection.execListener "Get" true item cmds
        = Collection.execListener "Get" true item
            (cmds.filter (fun c => !c.isCancelOrProtect))) := by
  constructor
  · intro method item cmds hm
    rw [Collection.execListener, Collection.execListener, if_neg hm, if_neg hm,
      Collection.execNonGet, Collection.execNonGet, runCmds_root_filter]
  · intro item cmds
    rw [Collection.execListener, Collection.execListener, if_pos rfl, if_pos rfl]
    cases item
    case vArr elems =>
      simp only [Collection.execListenerGet]
      rw [getLoop_congr true cmds (cmds.filter (fun c => !c.isCancelOrProtect))
        (fun i h2 d t e => runGetCmds_root_filter cmds i h2 d t e)]
    all_goals rfl

/-- C3 witness: a root-session `Post` hook that cancels, hides and
protects behaves exactly like the hook with those calls stripped. -/
theorem c3_witness :
    Collection.execListener "Post" true (.vObj [("a", JsVal.vNum 1)])
        [.cancel "no" none, .hide "a", .protect "a"]
      = Collection.execListener "Post" true (.vObj [("a", JsVal.vNum 1)])
          ([HookCmd.cancel "no" none, .hide "a", .protect "a"].filter
            (fun c => !c.isPriv)) :=
  c3_root_capability_noop.1 "Post" (.vObj [("a", JsVal.vNum 1)])
    [.cancel "no" none, .hide "a", .protect "a"] (by decide)

/-- C3 counterexample: with `session.isRoot = true`, a `Get` hook
calling `hide("secret")` still removes the field from the record — the
wrapper's local `hide` carries no root check — so the claim that every
root-session `hide` leaves the record unchanged is false. -/
theorem c3_counterexample :
    Collection.execListener "Get" true
        (.vArr [.vObj [("secret", JsVal.vStr "s")]]) [.hide "secret"]
      = .okList [some (.vObj [])]
  ∧ Collection.execListener "Get" true
        (.vArr [.vObj [("secret", JsVal.vStr "s")]]) []
      = .okList [some (.vObj [("secret", JsVal.vStr "s")])]
  ∧ (HookRes.okList [some (.vObj [])]
      ≠ HookRes.okList [some (.vObj [("secret", JsVal.vStr "s")])]) :=
  ⟨rfl, rfl, by simp⟩

/-! ## The Get wrapper applied per record -/

theorem getLoop_hide (f : String) :
    ∀ (recs : List JsObj) (done : List (Option JsVal)) (errors : Option JsObj),
    Collection.getLoop false [.hide f] recs.length done
        (recs.map (fun r => some (.vObj r))) errors
      = .ok (done ++ recs.map (fun r => some (.vObj (objDelete r f))), errors) := by
  intro recs
  induction recs with
  | nil => intro done errors; simp [Collection.getLoop]
  | cons r t ih =>
    intro done errors
    have step : Collection.getLoop false [HookCmd.hide f] (t.length + 1) done
        (some (.vObj r) :: t.map (fun x => some (.vObj x))) errors
      = Collection.getLoop false [HookCmd.hide f] t.length
          (done ++ [some (.vObj (objDelete r f))])
          (t.map (fun x => some (.vObj x))) errors := rfl
    simp only [List.map_cons, List.length_cons]
    rw [step, ih]
    simp

theorem getLoop_flag_error :
    ∀ (recs : List JsObj) (done : List (Option JsVal)) (e : Option JsObj),
    (e = none ∨ e = some [("x", JsVal.vStr "bad")]) →
    Collection.getLoop false [.retIfNot "flag", .error "x" (some "bad")]
        recs.length done (recs.map (fun r => some (.vObj r))) e
      = .ok (done ++ recs.map (fun r => some (.vObj r)),
          if recs.any (fun r => jsTruthy (objGet r "flag"))
          then some [("x", JsVal.vStr "bad")] else e) := by
  intro recs
  induction recs with
  | nil => intro done e he; simp [Collection.getLoop]
  | cons r t ih =>
    intro done e he
    have herrval : errVal (some "bad") = .vStr "bad" := rfl
    by_cases hf : jsTruthy (jsGetProp (.vObj r) "flag") = true
    · have hset : objSet (e.getD []) "x" (errVal (some "bad"))
          = [("x", JsVal.vStr "bad")] := by
        rcases he with he | he <;> subst he <;> rfl
      have hrun : Collection.runGetCmds false
          [HookCmd.retIfNot "flag", .error "x" (some "bad")] (.vObj r) false done
          (t.map (fun x => some (.vObj x))) e
        = .ok (.vObj r, false, done, t.map (fun x => some (.vObj x)),
            some [("x", JsVal.vStr "bad")]) := by
        simp only [Collection.runGetCmds, hf, if_pos]
        rw [hset]
      have step : Collection.getLoop false
          [HookCmd.retIfNot "flag", .error "x" (some "bad")] (t.length + 1) done
          (some (.vObj r) :: t.map (fun x => some (.vObj x))) e
        = Collection.getLoop false
            [HookCmd.retIfNot "flag", .error "x" (some "bad")] t.length
            (done ++ [some (.vObj r)]) (t.map (fun x => some (.vObj x)))
            (some [("x", JsVal.vStr "bad")]) := by
        simp only [Collection.getLoop, hrun]
        simp
      simp only [List.map_cons, List.length_cons]
      rw [step, ih (done ++ [some (JsVal.vObj r)]) (some [("x", JsVal.vStr "bad")])
        (Or.inr rfl)]
      have hflag : jsTruthy (objGet r "flag") = true := by
        simpa [jsGetProp] using hf
      simp [hflag]
    · have hrun : Collection.runGetCmds false
          [HookCmd.retIfNot "flag", .error "x" (some "bad")] (.vObj r) false done
          (t.map (fun x => some (.vObj x))) e
        = .ok (.vObj r, false, done, t.map (fun x => some (.vObj x)), e) := by
        simp only [Collection.runGetCmds, hf, if_neg]
        simp [hf]
      have step : Collection.getLoop false
          [HookCmd.retIfNot "flag", .error "x" (some "bad")] (t.length + 1) done
          (some (.vObj r) :: t.map (fun x => some (.vObj x))) e
        = Collection.getLoop false
            [HookCmd.retIfNot "flag", .error "x" (some "bad")] t.length
            (done ++ [some (.vObj r)]) (t.map (fun x => some (.vObj x))) e := by
        simp only [Collection.getLoop, hrun]
        simp
      simp only [List.map_cons, List.length_cons]
      rw [step, ih (done ++ [some (JsVal.vObj r)]) e he]
      have hflag : jsTruthy (objGet r "flag") = false := by
        have := hf
        simp only [jsGetProp] at this
        simpa using this
      simp [hflag]

/-- C4 (amended): the `Get` hook logic runs once per record, in order;
`hide(f)` removes exactly that field from the record it runs against,
independently for each record; and when no `error` call fires the
aggregate result is the (possibly redacted) list in original order —
but an `error` call made while processing any record replaces the
aggregate result with the accumulated ErrorMap instead of the list,
since `execListener` ends with `fn(err, errors || item)`. -/
theorem c4_get_per_record :
    (∀ (recs : List JsObj) (f : String),
      Collection.execListener "Get" false (.vArr (recs.map .vObj)) [.hide f]
        = .okList (recs.map (fun r => some (.vObj (objDelete r f)))))
  ∧ (∀ (r : JsObj) (f k : String), k ≠ f →
      objLookup (objDelete r f) k = objLookup r k)
  ∧ (∀ (recs : List JsObj),
      Collection.execListener "Get" false (.vArr (recs.map .vObj))
          [.retIfNot "flag", .error "x" (some "bad")]
        = if recs.any (fun r => jsTruthy (objGet r "flag"))
          then .okErrors [("x", JsVal.vStr "bad")]
          else .okList (recs.map (fun r => some (.vObj r)))) := by
  refine ⟨?_, ?_, ?_⟩
  · intro recs f
    rw [Collection.execListener, if_pos rfl]
    simp only [Collection.execListenerGet, List.length_map, List.map_map]
    have h := getLoop_hide f recs [] none
    rw [show ((fun x => some x) ∘ JsVal.vObj) = (fun r => some (JsVal.vObj r)) from rfl]
    rw [h]
    simp
  · intro r f k hk
    rw [objLookup_objDelete, if_neg hk]
  · intro recs
    rw [Collection.execListener, if_pos rfl]
    simp only [Collection.execListenerGet, List.length_map, List.map_map]
    have h := getLoop_flag_error recs [] none (Or.inl rfl)
    rw [show ((fun x => some x) ∘ JsVal.vObj) = (fun r => some (JsVal.vObj r)) from rfl]
    rw [h]
    by_cases hany : recs.any (fun r => jsTruthy (objGet r "flag")) = true <;>
      simp [hany]

/-- C4 witness: `hide("secret")` removes `secret` from each of three
records independently, leaving the other fields of each record intact. -/
theorem c4_witness :
    Collection.execListener "Get" false
        (.vArr ([[("secret", JsVal.vStr "s"), ("a", JsVal.vNum 1)],
                 [("secret", JsVal.vStr "t"), ("a", JsVal.vNum 2)],
                 [("a", JsVal.vNum 3)]].map JsVal.vObj))
        [.hide "secret"]
      = .okList ([[("secret", JsVal.vStr "s"), ("a", JsVal.vNum 1)],
                  [("secret", JsVal.vStr "t"), ("a", JsVal.vNum 2)],
                  [("a", JsVal.vNum 3)]].map
          (fun r => some (.vObj (objDelete r "secret"))))
  ∧ objLookup (objDelete [("secret", JsVal.vStr "s"), ("a", JsVal.vNum 1)] "secret") "a"
      = objLookup [("secret", JsVal.vStr "s"), ("a", JsVal.vNum 1)] "a" :=
  ⟨c4_get_per_record.1
      [[("secret", JsVal.vStr "s"), ("a", JsVal.vNum 1)],
       [("secret", JsVal.vStr "t"), ("a", JsVal.vNum 2)],
       [("a", JsVal.vNum 3)]] "secret",
   c4_get_per_record.2.1 [("secret", JsVal.vStr "s"), ("a", JsVal.vNum 1)]
      "secret" "a" (by decide)⟩

/-- C4 counterexample: a `Get` hook that calls `error("x","bad")` only
while processing record 2 (the only record with a truthy `flag`) makes
the whole operation return the ErrorMap — not the list with record 2's
shape changed — so the claimed per-record containment of `error` is
false. -/
theorem c4_counterexample :
    Collection.execListener "Get" false
        (.vArr [.vObj [("a", JsVal.vNum 1)],
                .vObj [("flag", JsVal.vBool true), ("a", JsVal.vNum 2)],
                .vObj [("a", JsVal.vNum 3)]])
        [.retIfNot "flag", .error "x" (some "bad")]
      = .okErrors [("x", JsVal.vStr "bad")]
  ∧ (HookRes.okErrors [("x", JsVal.vStr "bad")]
      ≠ HookRes.okList [some (.vObj [("a", JsVal.vNum 1)]),
          some (.vObj [("flag", JsVal.vBool true), ("a", JsVal.vNum 2)]),
          some (.vObj [("a", JsVal.vNum 3)])]) :=
  ⟨rfl, by simp⟩

/-! ## The CRUD orchestration -/

/-- C1: `Collection.prototype.save` evaluated on a plain insert-shaped
call.  The function issues `store.insert(item)` immediately — its event
trace contains no hook run, and the model (a faithful embedding of
source lines 302-324) never consults `sanitize`, `validate`,
`execListener`, the session, or any listener setting; meanwhile the
second conjunct shows the configured `Post` hook would have produced a
non-empty ErrorMap had it been run. -/
theorem c1_save_bypasses_hooks_and_validation :
    Collection.save (some (.vObj [("title", JsVal.vStr "x")])) (some (.vObj []))
      = ([Event.storeInsert (.vObj [("title", JsVal.vStr "x")])], .delegated)
  ∧ Collection.execListener "Post" false (.vObj [("title", JsVal.vStr "x")])
        [.error "title" (some "bad")]
      = .okErrors [("title", JsVal.vStr "bad")] :=
  ⟨rfl, rfl⟩

/-- C2: a save whose collection has a cancelling `Post` hook and a
non-root session still issues a store call: `save` never executes the
listener, so the cancellation (second conjunct: the hook, if run, throws
for a non-root session) cannot stop the `store.insert`. -/
theorem c2_save_ignores_cancelling_post_hook :
    Collection.save (some (.vObj [("name", JsVal.vStr "n")])) none
      = ([Event.storeInsert (.vObj [("name", JsVal.vStr "n")])], .delegated)
  ∧ Collection.execListener "Post" false (.vObj [("name", JsVal.vStr "n")])
        [.cancel "no" none]
      = .failed (.cancelled "no" none) :=
  ⟨rfl, rfl⟩

theorem jsTruthy_vObj (o : JsObj) : jsTruthy (.vObj o) = true := rfl

theorem jsGetProp_vObj (o : JsObj) (k : String) :
    jsGetProp (.vObj o) k = objGet o k := rfl

theorem jsSetProp_vObj (o : JsObj) (k : String) (x : JsVal) :
    jsSetProp (.vObj o) k x = .vObj (objSet o k x) := rfl

theorem jsDelProp_vObj (o : JsObj) (k : String) :
    jsDelProp (.vObj o) k = .vObj (objDelete o k) := rfl

theorem save_obj_cases (item query : JsObj) :
    Collection.save (some (.vObj item)) (some (.vObj query))
      = (if jsTruthy (objGet item "_id") = true
         then (if jsTruthy (objGet (objSet query "_id" (objGet item "_id")) "_id") = true
               then ([Event.storeUpdate
                       (.vObj (objSet query "_id" (objGet item "_id")))
                       (.vObj (objDelete item "_id"))], .delegated)
               else ([Event.storeInsert (.vObj (objDelete item "_id"))], .delegated))
         else (if jsTruthy (objGet query "_id") = true
               then ([Event.storeUpdate (.vObj query) (.vObj item)], .delegated)
               else ([Event.storeInsert (.vObj item)], .delegated))) := by
  by_cases h1 : jsTruthy (objGet item "_id") = true
  · by_cases h2 : jsTruthy (objGet (objSet query "_id" (objGet item "_id")) "_id") = true <;>
      simp [Collection.save, jsTruthy_vObj, jsGetProp_vObj, jsSetProp_vObj,
        jsDelProp_vObj, h1, h2]
  · by_cases h2 : jsTruthy (objGet query "_id") = true <;>
      simp [Collection.save, jsTruthy_vObj, jsGetProp_vObj, jsSetProp_vObj,
        jsDelProp_vObj, h1, h2]

/-- C5 (amended): with a truthy `item._id` the value is moved onto the
query, deleted from the item, and `store.update(query, item)` is issued;
with no truthy `item._id`, a truthy `query._id` also routes to update;
otherwise `store.insert(item)` — exactly one store call either way.
(The source tests `if (item._id)` and `query._id ? 'update' : 'insert'`,
so a falsy `_id` such as `""` or `0` is treated as absent.) -/
theorem c5_save_upsert_routing (item query : JsObj) :
    (∀ idv, objLookup item "_id" = some idv → jsTruthy idv = true →
      Collection.save (some (.vObj item)) (some (.vObj query))
        = ([Event.storeUpdate (.vObj (objSet query "_id" idv))
              (.vObj (objDelete item "_id"))], .delegated))
  ∧ (jsTruthy (objGet item "_id") = false → jsTruthy (objGet query "_id") = true →
      Collection.save (some (.vObj item)) (some (.vObj query))
        = ([Event.storeUpdate (.vObj query) (.vObj item)], .delegated))
  ∧ (jsTruthy (objGet item "_id") = false → jsTruthy (objGet query "_id") = false →
      Collection.save (some (.vObj item)) (some (.vObj query))
        = ([Event.storeInsert (.vObj item)], .delegated)) := by
  refine ⟨?_, ?_, ?_⟩
  · intro idv hlook htru
    have hget : objGet item "_id" = idv := by rw [objGet, hlook]; rfl
    rw [save_obj_cases, hget, if_pos htru,
      if_pos (show jsTruthy (objGet (objSet query "_id" idv) "_id") = true by
        rw [objGet, objLookup_objSet_self]; exact htru)]
  · intro hfalse htru
    rw [save_obj_cases, if_neg (by rw [hfalse]; exact Bool.false_ne_true),
      if_pos htru]
  · intro hfalse hfq
    rw [save_obj_cases, if_neg (by rw [hfalse]; exact Bool.false_ne_true),
      if_neg (by rw [hfq]; exact Bool.false_ne_true)]

/-- C5 counterexample: an item that carries an `_id` field with the
falsy value `""` is not routed to update — the `_id` is neither moved
into the query nor deleted, and `store.insert` receives the item with
`_id` still aboard — so the claim, which keys on the field's presence,
is false. -/
theorem c5_counterexample :
    Collection.save
        (some (.vObj [("_id", JsVal.vStr ""), ("title", JsVal.vStr "x")]))
        (some (.vObj []))
      = ([Event.storeInsert
            (.vObj [("_id", JsVal.vStr ""), ("title", JsVal.vStr "x")])], .delegated)
  ∧ ([Event.storeInsert (.vObj [("_id", JsVal.vStr ""), ("title", JsVal.vStr "x")])]
      ≠ [Event.storeUpdate (.vObj [("_id", JsVal.vStr "")])
          (.vObj [("title", JsVal.vStr "x")])]) :=
  ⟨rfl, by simp⟩

/-- C5 witness: the spec's own example — `save(session, {_id:"42",
title:"x"}, {})` issues `update({_id:"42"}, {title:"x"})`, never
insert. -/
theorem c5_witness :
    objLookup [("_id", JsVal.vStr "42"), ("title", JsVal.vStr "x")] "_id"
      = some (JsVal.vStr "42")
  ∧ Collection.save
      (some (.vObj [("_id", JsVal.vStr "42"), ("title", JsVal.vStr "x")]))
      (some (.vObj []))
    = ([Event.storeUpdate
          (.vObj (objSet [] "_id" (JsVal.vStr "42")))
          (.vObj (objDelete [("_id", JsVal.vStr "42"), ("title", JsVal.vStr "x")] "_id"))],
       .delegated) :=
  ⟨rfl,
   (c5_save_upsert_routing [("_id", JsVal.vStr "42"), ("title", JsVal.vStr "x")] []).1
     (JsVal.vStr "42") rfl rfl⟩

/-- C6: a remove whose query has no `_id` key fails immediately with the
descriptive precondition message and issues no store call at all (empty
event trace: no `find`, no `remove`), for any session, hook and store
behaviour. -/
theorem c6_remove_requires_id (q : JsObj) (root : Bool) (cmds : List HookCmd)
    (findErr : Option String) (h : objLookup q "_id" = none) :
    Collection.remove root (some (.vObj q)) cmds findErr
      = ([], .precondFail
          "You must include a query with an _id when deleting an object from a collection.") := by
  have hget : objGet q "_id" = .vUndefined := by rw [objGet, h]; rfl
  rw [Collection.remove.eq_def]
  simp [jsGetProp_vObj, hget, jsTruthy]

/-- C6 witness: `remove(session, {}, cb)` fails with the precondition
error and an empty store trace. -/
theorem c6_witness :
    objLookup [] "_id" = none
  ∧ Collection.remove false (some (.vObj [])) [] none
      = ([], .precondFail
          "You must include a query with an _id when deleting an object from a collection.") :=
  ⟨rfl, c6_remove_requires_id [] false [] none rfl⟩

/-- C7 (amended): for a remove whose query carries a truthy `_id`, the
stages run strictly in sequence — `store.find(query)` is always the
first event; a find failure is propagated unchanged with no hook run and
no `store.remove`; on find success the `Delete` hook runs with a `null`
payload as the second event; a hook failure is propagated unchanged with
no `store.remove`; and only on hook success is `store.remove(query)`
issued.  (The source guard `if(!(query && query._id))` means a falsy
`_id` — e.g. `0` — fails fast instead, hence the truthiness proviso.) -/
theorem c7_remove_sequencing (q : JsObj) (root : Bool) (cmds : List HookCmd)
    (findErr : Option String) (h : jsTruthy (objGet q "_id") = true) :
    ((Collection.remove root (some (.vObj q)) cmds findErr).1.head?
        = some (.storeFind (.vObj q)))
  ∧ (∀ e, findErr = some e →
      Collection.remove root (some (.vObj q)) cmds findErr
        = ([.storeFind (.vObj q)], .findFailed e))
  ∧ (findErr = none →
      (Collection.remove root (some (.vObj q)) cmds findErr).1.take 2
        = [.storeFind (.vObj q), .hookRun "Delete" .vNull])
  ∧ (∀ e, findErr = none →
      Collection.execListener "Delete" root .vNull cmds = .failed e →
      Collection.remove root (some (.vObj q)) cmds findErr
        = ([.storeFind (.vObj q), .hookRun "Delete" .vNull], .hookFailed e))
  ∧ (findErr = none →
      (∀ e, Collection.execListener "Delete" root .vNull cmds ≠ .failed e) →
      Collection.remove root (some (.vObj q)) cmds findErr
        = ([.storeFind (.vObj q), .hookRun "Delete" .vNull, .storeRemove (.vObj q)],
           .delegated)) := by
  have hrem : Collection.remove root (some (.vObj q)) cmds findErr
      = (match findErr with
        | some e => ([.storeFind (.vObj q)], .findFailed e)
        | none =>
          match Collection.execListener "Delete" root .vNull cmds with
          | .failed e =>
              ([.storeFind (.vObj q), .hookRun "Delete" .vNull], .hookFailed e)
          | _ =>
              ([.storeFind (.vObj q), .hookRun "Delete" .vNull,
                .storeRemove (.vObj q)], .delegated)) := by
    rw [Collection.remove.eq_def]
    simp [jsGetProp_vObj, jsTruthy_vObj, h]
  refine ⟨?_, ?_, ?_, ?_, ?_⟩
  · rw [hrem]
    cases findErr with
    | some e => rfl
    | none =>
      cases hexec : Collection.execListener "Delete" root .vNull cmds <;>
        simp [hexec]
  · intro e he
    subst he
    rw [hrem]
  · intro he
    subst he
    rw [hrem]
    cases hexec : Collection.execListener "Delete" root .vNull cmds <;>
      simp [hexec]
  · intro e he hexec
    subst he
    rw [hrem, hexec]
  · intro he hne
    subst he
    rw [hrem]
    cases hexec : Collection.execListener "Delete" root .vNull cmds with
    | failed e => exact absurd hexec (hne e)
    | okErrors errs => rfl
    | okItem v => rfl
    | okList items => rfl

/-- C7 witness: a remove with `_id = "1"`, a clean find and an empty
`Delete` hook begins with `store.find(query)`. -/
theorem c7_witness :
    jsTruthy (objGet [("_id", JsVal.vStr "1")] "_id") = true
  ∧ (Collection.remove false (some (.vObj [("_id", JsVal.vStr "1")])) [] none).1.head?
      = some (Event.storeFind (.vObj [("_id", JsVal.vStr "1")])) :=
  ⟨rfl, (c7_remove_sequencing [("_id", JsVal.vStr "1")] false [] none rfl).1⟩

/-- C7 counterexample: the query `{_id: 0}` includes an `_id`, yet the
source's truthiness guard fails the call immediately — no `store.find`
is ever issued, contradicting the claim that find always runs first for
queries that include an `_id`. -/
theorem c7_counterexample :
    Collection.remove false (some (.vObj [("_id", JsVal.vNum 0)])) [] none
      = ([], .precondFail
          "You must include a query with an _id when deleting an object from a collection.")
  ∧ (([] : List Event) ≠ [Event.storeFind (.vObj [("_id", JsVal.vNum 0)])]) :=
  ⟨rfl, by simp⟩
